import Mathlib

/-!
Verification of `prepdocscsv.py`, a CLI utility that reads a CSV file and
indexes its rows as documents into an Azure Cognitive Search index.

The script is embedded shallowly: CSV rows become association lists, the
remote index becomes an explicit state value (a list of index names, or a
list of documents), and each SDK call site becomes a pure function that
returns the calls it would issue together with the next state.
-/

/-- A document record, the flat three-field mapping built from one CSV row
(line 109 of the script). -/
structure Doc where
  id : String
  name : String
  description : String
  deriving DecidableEq, Repr

/-- A CSV row as produced by `csv.DictReader`: a finite mapping from column
names to cell values, embedded as an association list. `row.lookup c` is
`row[c]` except that a missing column yields `none` instead of raising
`KeyError`. -/
abbrev Row := List (String × String)

/-- The parsed command-line arguments (lines 12-28 of the script). Optional
string arguments default to `None` in argparse, hence `Option String`. -/
structure Args where
  files : String
  category : Option String
  skipblobs : Bool
  storageaccount : Option String
  container : Option String
  storagekey : Option String
  searchservice : Option String
  index : Option String
  searchkey : Option String
  remove : Bool
  removeall : Bool
  verbose : Bool
  deriving DecidableEq, Repr

/-- The credential value used for every service call: either the ambient
`DefaultAzureCredential` or an `AzureKeyCredential` built from a given key. -/
inductive Credential where
  | defaultAzure
  | key (k : String)
  deriving DecidableEq, Repr

/-- Lines 32-33 of the script:
`search_creds = default_creds if args.searchkey == None else AzureKeyCredential(args.searchkey)`,
where `default_creds` is `DefaultAzureCredential()` exactly when
`args.searchkey == None`. The Python `== None` test is `Option.isNone` here:
an empty string is not `None`. -/
def search_creds : Option String → Credential
  | none => Credential.defaultAzure
  | some k => Credential.key k

/-- `create_search_index` (lines 35-62): list the existing index names; if
the target name is absent, issue one creation call, otherwise none. The
state is the service side listing of index names; the second component
counts creation calls issued. -/
def create_search_index (index : String) (listing : List String) :
    List String × Nat :=
  if index ∈ listing then (listing, 0)
  else (listing ++ [index], 1)

/-- One top-level step of the script (lines 99-110). -/
inductive Step where
  | purgeAll
  | createIndex
  | readCSV
  | indexDocs
  deriving DecidableEq, Repr

/-- The top-level dispatch (lines 99-110): `--removeall` runs only the purge
loop; otherwise the index is created unless `--remove` is set, and the CSV
is read and indexed in every case. -/
def main_dispatch (a : Args) : List Step :=
  if a.removeall then [Step.purgeAll]
  else (if ¬ a.remove then [Step.createIndex] else []) ++
    [Step.readCSV, Step.indexDocs]

/-- C4: exactly one credential is produced, as a pure function of whether a
search key was provided: no key gives the ambient-identity credential, a key
gives a key-based credential built from that key, and the two modes never
coexist in one run. -/
theorem search_creds_modes (k : Option String) :
    (k = none → search_creds k = Credential.defaultAzure) ∧
    (∀ s, k = some s → search_creds k = Credential.key s) ∧
    ¬ (search_creds k = Credential.defaultAzure ∧
        ∃ s, search_creds k = Credential.key s) := by
  refine ⟨?_, ?_, ?_⟩
  · rintro rfl; rfl
  · rintro s rfl; rfl
  · rintro ⟨h1, s, h2⟩
    rw [h1] at h2
    exact Credential.noConfusion h2

/-- Witness for C4 at concrete keys. -/
theorem search_creds_modes_witness :
    search_creds none = Credential.defaultAzure ∧
    search_creds (some "abc") = Credential.key "abc" :=
  ⟨(search_creds_modes none).1 rfl,
   (search_creds_modes (some "abc")).2.1 "abc" rfl⟩

/-- C9: the credential choice tests `searchkey == None`, not emptiness: a
provided empty-string key yields a key-based credential built from the empty
string, not the ambient-identity credential. -/
theorem search_creds_empty_key :
    search_creds (some "") = Credential.key "" ∧
    search_creds (some "") ≠ Credential.defaultAzure := by
  refine ⟨rfl, ?_⟩
  intro h
  exact Credential.noConfusion h

/-- C5: `create_search_index` issues exactly one creation call when the index
name is absent from the listing and zero when present; calling it twice in a
row issues no creation call the second time, leaves the listing unchanged,
and never duplicates the name. -/
theorem create_search_index_idempotent (index : String) (listing : List String) :
    (index ∉ listing → create_search_index index listing = (listing ++ [index], 1)) ∧
    (index ∈ listing → create_search_index index listing = (listing, 0)) ∧
    (create_search_index index (create_search_index index listing).1).2 = 0 ∧
    (create_search_index index (create_search_index index listing).1).1 =
      (create_search_index index listing).1 ∧
    (listing.count index ≤ 1 →
      (create_search_index index (create_search_index index listing).1).1.count index = 1) := by
  by_cases h : index ∈ listing
  · refine ⟨fun hn => absurd h hn, fun _ => by simp [create_search_index, h], ?_, ?_, ?_⟩
    · simp [create_search_index, h]
    · simp [create_search_index, h]
    · intro hcount
      have h1 : 1 ≤ listing.count index := List.count_pos_iff.mpr h
      simp [create_search_index, h]
      omega
  · have hmem : index ∈ listing ++ [index] := by simp
    refine ⟨fun _ => by simp [create_search_index, h], fun hm => absurd hm h, ?_, ?_, ?_⟩
    · simp [create_search_index, h, hmem]
    · simp [create_search_index, h, hmem]
    · intro _
      have h0 : listing.count index = 0 := List.count_eq_zero.mpr h
      simp [create_search_index, h, hmem, List.count_append, h0]

/-- Witness for C5 on a concrete absent and present name. -/
theorem create_search_index_idempotent_witness :
    create_search_index "idx" [] = (["idx"], 1) ∧
    create_search_index "idx" ["idx"] = (["idx"], 0) :=
  ⟨(create_search_index_idempotent "idx" []).1 (by simp),
   (create_search_index_idempotent "idx" ["idx"]).2.1 (by simp)⟩

/-- C6: the top-level dispatch: `--removeall` runs only the purge loop and
bypasses CSV processing; otherwise `--remove` skips index creation but the
CSV is still read and indexed, and with neither flag the index is created,
then the CSV is read and indexed. -/
theorem main_dispatch_cases (a : Args) :
    (a.removeall = true → main_dispatch a = [Step.purgeAll]) ∧
    (a.removeall = false → a.remove = true →
      main_dispatch a = [Step.readCSV, Step.indexDocs]) ∧
    (a.removeall = false → a.remove = false →
      main_dispatch a = [Step.createIndex, Step.readCSV, Step.indexDocs]) := by
  refine ⟨?_, ?_, ?_⟩
  · intro h; simp [main_dispatch, h]
  · intro h h2; simp [main_dispatch, h, h2]
  · intro h h2; simp [main_dispatch, h, h2]

/-- Witness for C6 at concrete argument records. -/
theorem main_dispatch_cases_witness :
    main_dispatch ⟨"d.csv", none, false, none, none, none, none, none, none,
      false, true, false⟩ = [Step.purgeAll] ∧
    main_dispatch ⟨"d.csv", none, false, none, none, none, none, none, none,
      true, false, false⟩ = [Step.readCSV, Step.indexDocs] ∧
    main_dispatch ⟨"d.csv", none, false, none, none, none, none, none, none,
      false, false, false⟩ = [Step.createIndex, Step.readCSV, Step.indexDocs] :=
  ⟨(main_dispatch_cases _).1 rfl,
   (main_dispatch_cases _).2.1 rfl rfl,
   (main_dispatch_cases _).2.2 rfl rfl⟩

/-- The batching loop of `index_sections` (lines 69-78): each record is added
to the current batch and a counter `i` is incremented; whenever `i` becomes a
multiple of 1000 the batch is flushed with an upload call and reset. Returns
the flushed batches in order together with the unflushed trailing batch. -/
def indexLoop : List Doc → List Doc → Nat → List (List Doc) × List Doc
  | [], batch, _ => ([], batch)
  | s :: rest, batch, i =>
      let batch2 := batch ++ [s]
      let i2 := i + 1
      if i2 % 1000 = 0 then
        let r := indexLoop rest [] i2
        (batch2 :: r.1, r.2)
      else indexLoop rest batch2 i2

/-- `index_sections` (lines 64-83), restricted to the upload calls it issues:
the loop flushes, followed by the trailing flush of lines 80-81, which is
issued only when the leftover batch is non-empty. Each element of the result
is the document list of one upload call, in call order. -/
def index_sections_batches (sections : List Doc) : List (List Doc) :=
  let r := indexLoop sections [] 0
  if 0 < r.2.length then r.1 ++ [r.2] else r.1

/-- Specification view of the batching: split a list into consecutive chunks
of 1000, the last chunk holding the 1 to 1000 leftover elements. -/
def chunks1000 : List Doc → List (List Doc)
  | [] => []
  | a :: t => ((a :: t).take 1000) :: chunks1000 ((a :: t).drop 1000)
termination_by l => l.length
decreasing_by
  simp
  omega

/-- Unfolding equation of `chunks1000` for any non-empty list. -/
theorem chunks1000_eq_of_ne_nil (l : List Doc) (h : l ≠ []) :
    chunks1000 l = l.take 1000 :: chunks1000 (l.drop 1000) := by
  cases l with
  | nil => exact absurd rfl h
  | cons a t => rw [chunks1000]

/-- `chunks1000` of a short non-empty list is that single list. -/
theorem chunks1000_of_short (l : List Doc) (h : l.length ≤ 1000) :
    chunks1000 l = if l = [] then [] else [l] := by
  cases l with
  | nil => rw [chunks1000]; rfl
  | cons a t =>
    rw [chunks1000]
    simp [List.take_of_length_le h, List.drop_eq_nil_of_le h]
    rw [chunks1000]

/-- The loop of `index_sections`, followed by the guarded trailing flush,
produces exactly the 1000-chunks of the pending batch prepended to the
remaining input. The invariant `i % 1000 = batch.length < 1000` holds at the
top of every loop iteration. -/
theorem indexLoop_chunks (l : List Doc) : ∀ (batch : List Doc) (i : Nat),
    i % 1000 = batch.length → batch.length < 1000 →
    ((indexLoop l batch i).1 ++
      (if 0 < (indexLoop l batch i).2.length then [(indexLoop l batch i).2] else [])) =
    chunks1000 (batch ++ l) := by
  induction l with
  | nil =>
    intro batch i h1 h2
    rw [List.append_nil]
    cases batch with
    | nil => simp [indexLoop, chunks1000]
    | cons b bs =>
      simp only [indexLoop, List.length_cons, List.nil_append]
      rw [chunks1000_of_short _ (by omega)]
      simp
  | cons s rest ih =>
    intro batch i h1 h2
    by_cases hc : (i + 1) % 1000 = 0
    · have hb : batch.length = 999 := by omega
      simp only [indexLoop, hc, if_pos]
      have hrec := ih [] (i + 1) (by simpa using hc) (by norm_num)
      simp only [List.nil_append] at hrec
      have hassoc : batch ++ s :: rest = (batch ++ [s]) ++ rest := by simp
      rw [hassoc, chunks1000_eq_of_ne_nil _ (by simp)]
      have hlen : (batch ++ [s]).length = 1000 := by simp [hb]
      rw [← hlen, List.take_left, List.drop_left]
      simp only [List.cons_append]
      rw [hrec]
    · have hb1 : (i + 1) % 1000 = batch.length + 1 := by omega
      simp only [indexLoop, hc, if_neg, ite_false]
      have hrec := ih (batch ++ [s]) (i + 1) (by simp [hb1]) (by simp; omega)
      rw [hrec]
      simp

/-- The upload calls of `index_sections` are exactly the 1000-chunks of its
input. -/
theorem index_sections_batches_eq_chunks (sections : List Doc) :
    index_sections_batches sections = chunks1000 sections := by
  have h := indexLoop_chunks sections [] 0 rfl (by norm_num)
  rw [List.nil_append] at h
  unfold index_sections_batches
  rw [← h]
  by_cases hp : 0 < (indexLoop sections [] 0).2.length <;> simp [hp]

/-- `chunks1000` never produces chunks from nothing. -/
theorem chunks1000_eq_nil_iff (l : List Doc) : chunks1000 l = [] ↔ l = [] := by
  cases l with
  | nil => simp [chunks1000]
  | cons a t => rw [chunks1000]; simp

/-- C10: `index_sections` partitions its input without loss, duplication or
reordering: the concatenation of the flushed batches, in flush order, is the
input sequence itself. -/
theorem index_sections_batches_join (sections : List Doc) :
    (index_sections_batches sections).flatten = sections := by
  rw [index_sections_batches_eq_chunks]
  induction sections using chunks1000.induct with
  | case1 => rw [chunks1000]; rfl
  | case2 a t ih =>
    rw [chunks1000]
    simp only [List.flatten_cons, ih]
    exact List.take_append_drop 1000 (a :: t)

/-- The number of chunks is the ceiling of the length divided by 1000. -/
theorem chunks1000_length (l : List Doc) :
    (chunks1000 l).length = (l.length + 999) / 1000 := by
  induction l using chunks1000.induct with
  | case1 => rw [chunks1000]; rfl
  | case2 a t ih =>
    rw [chunks1000]
    simp only [List.length_cons, ih, List.length_drop]
    omega

/-- Every chunk except possibly the last holds exactly 1000 records. -/
theorem chunks1000_dropLast_length (l : List Doc) :
    ∀ c ∈ (chunks1000 l).dropLast, c.length = 1000 := by
  induction l using chunks1000.induct with
  | case1 => rw [chunks1000]; intro c hc; simp at hc
  | case2 a t ih =>
    rw [chunks1000]
    by_cases hd : (a :: t).drop 1000 = []
    · rw [hd, chunks1000]
      intro c hc; simp at hc
    · have hne : chunks1000 ((a :: t).drop 1000) ≠ [] := by
        rw [ne_eq, chunks1000_eq_nil_iff]; exact hd
      intro c hc
      rcases List.exists_cons_of_ne_nil hne with ⟨c2, l2, heq⟩
      rw [heq, List.dropLast_cons₂] at hc
      rcases List.mem_cons.mp hc with h | h
      · subst h
        have hlen : 1000 ≤ (a :: t).length := by
          by_contra hlt
          exact hd (List.drop_eq_nil_of_le (by omega))
        simp only [List.length_cons] at hlen
        simp [List.length_take]
        omega
      · exact ih c (by rw [heq]; exact h)

/-- The last chunk holds the remainder: `n % 1000` records when that is
non-zero, and a full 1000 when `n` is a positive multiple of 1000. -/
theorem chunks1000_getLast_length (l : List Doc) :
    ∀ c, (chunks1000 l).getLast? = some c →
      c.length = if l.length % 1000 = 0 then 1000 else l.length % 1000 := by
  induction l using chunks1000.induct with
  | case1 => rw [chunks1000]; intro c hc; simp at hc
  | case2 a t ih =>
    rw [chunks1000]
    intro c hc
    by_cases hd : (a :: t).drop 1000 = []
    · rw [hd, chunks1000] at hc
      have hlen : (a :: t).length ≤ 1000 := by
        have hh := congrArg List.length hd
        simp only [List.length_drop, List.length_nil] at hh
        omega
      rw [List.take_of_length_le hlen] at hc
      simp only [List.getLast?_singleton, Option.some.injEq] at hc
      subst hc
      simp only [List.length_cons] at hlen ⊢
      by_cases hmod : (t.length + 1) % 1000 = 0
      · simp only [hmod, if_pos]; omega
      · simp only [hmod, if_neg, ite_false]; omega
    · have hne : chunks1000 ((a :: t).drop 1000) ≠ [] := by
        rw [ne_eq, chunks1000_eq_nil_iff]; exact hd
      rcases List.exists_cons_of_ne_nil hne with ⟨c2, l2, heq⟩
      rw [heq, List.getLast?_cons_cons] at hc
      have hr := ih c (by rw [heq]; exact hc)
      have hlen : 1000 ≤ (a :: t).length := by
        by_contra hlt
        exact hd (List.drop_eq_nil_of_le (by omega))
      rw [List.length_drop] at hr
      have hmodeq : ((a :: t).length - 1000) % 1000 = (a :: t).length % 1000 := by
        omega
      rw [hmodeq] at hr
      exact hr

/-- 2500 records are flushed as two full chunks of 1000 and a final 500. -/
theorem chunks1000_replicate_2500 (d : Doc) :
    chunks1000 (List.replicate 2500 d) =
      [List.replicate 1000 d, List.replicate 1000 d, List.replicate 500 d] := by
  have hne : ∀ (n : Nat), n ≠ 0 → List.replicate n d ≠ [] := by
    intro n hn
    rw [ne_eq, List.replicate_eq_nil_iff]
    exact hn
  rw [chunks1000_eq_of_ne_nil _ (hne 2500 (by norm_num)),
    List.take_replicate, List.drop_replicate]
  norm_num
  rw [chunks1000_eq_of_ne_nil _ (hne 1500 (by norm_num)),
    List.take_replicate, List.drop_replicate]
  norm_num
  rw [chunks1000_of_short _ (by rw [List.length_replicate]; norm_num)]
  rw [if_neg (hne 500 (by norm_num))]

/-- C1: for an input of N records, `index_sections` issues ceil(N / 1000)
upload calls when N mod 1000 is non-zero and N / 1000 calls when it is zero
(the trailing flush being skipped on an exact multiple); every call but the
last carries exactly 1000 records, the last carries the remainder 1..999 when
N mod 1000 is non-zero and a full 1000 otherwise; N = 2500 gives exactly the
three batches of sizes 1000, 1000, 500, and N = 0 gives no call at all. -/
theorem index_sections_upload_calls (sections : List Doc) (d : Doc) :
    (sections.length % 1000 ≠ 0 →
      (index_sections_batches sections).length = sections.length / 1000 + 1) ∧
    (sections.length % 1000 = 0 →
      (index_sections_batches sections).length = sections.length / 1000) ∧
    (∀ b ∈ (index_sections_batches sections).dropLast, b.length = 1000) ∧
    (∀ b, (index_sections_batches sections).getLast? = some b →
      (sections.length % 1000 ≠ 0 →
        b.length = sections.length % 1000 ∧ 1 ≤ b.length ∧ b.length ≤ 999) ∧
      (sections.length % 1000 = 0 → b.length = 1000)) ∧
    index_sections_batches (List.replicate 2500 d) =
      [List.replicate 1000 d, List.replicate 1000 d, List.replicate 500 d] ∧
    index_sections_batches ([] : List Doc) = [] := by
  have hlen := chunks1000_length sections
  rw [← index_sections_batches_eq_chunks] at hlen
  refine ⟨?_, ?_, ?_, ?_, ?_, ?_⟩
  · intro hm; omega
  · intro hm; omega
  · rw [index_sections_batches_eq_chunks]
    exact chunks1000_dropLast_length sections
  · intro b hb
    rw [index_sections_batches_eq_chunks] at hb
    have h := chunks1000_getLast_length sections b hb
    constructor
    · intro hm
      rw [if_neg hm] at h
      refine ⟨h, ?_, ?_⟩ <;> omega
    · intro hm
      rw [if_pos hm] at h
      exact h
  · rw [index_sections_batches_eq_chunks]
    exact chunks1000_replicate_2500 d
  · rfl

/-- Witness for C1 at a one-record input: a single upload call is issued. -/
theorem index_sections_upload_calls_witness :
    ([(⟨"1", "a", "b"⟩ : Doc)].length % 1000 ≠ 0) ∧
    (index_sections_batches [(⟨"1", "a", "b"⟩ : Doc)]).length =
      [(⟨"1", "a", "b"⟩ : Doc)].length / 1000 + 1 :=
  ⟨by decide,
   (index_sections_upload_calls [⟨"1", "a", "b"⟩] ⟨"1", "a", "b"⟩).1 (by decide)⟩

/-- One step of the comprehension on line 109:
`{"id": row["id"], "name": row["name"], "description": row["description"]}`.
The three columns are looked up left to right; the first missing one raises
`KeyError`, embedded as an error value naming the column. -/
def rowToDoc (row : Row) : Except String Doc :=
  match row.lookup "id" with
  | none => Except.error "KeyError: id"
  | some i =>
    match row.lookup "name" with
    | none => Except.error "KeyError: name"
    | some n =>
      match row.lookup "description" with
      | none => Except.error "KeyError: description"
      | some ds => Except.ok (Doc.mk i n ds)

/-- The comprehension on line 109: map every CSV row to a document record,
left to right, stopping at the first `KeyError`. -/
def buildSections : List Row → Except String (List Doc)
  | [] => Except.ok []
  | row :: rest =>
    match rowToDoc row with
    | Except.error e => Except.error e
    | Except.ok d =>
      match buildSections rest with
      | Except.error e => Except.error e
      | Except.ok ds => Except.ok (d :: ds)

/-- The ingestion step (lines 104-110): build the full section list from the
CSV rows, then run `index_sections` on it. The first component is the list
of upload calls issued; a missing column raises `KeyError` while the section
list is built, before `index_sections` is ever called. -/
def ingest (rows : List Row) : List (List Doc) × Except String Unit :=
  match buildSections rows with
  | Except.error e => ([], Except.error e)
  | Except.ok secs => (index_sections_batches secs, Except.ok ())

/-- The run restricted to its upload calls (lines 99-110): under
`--removeall` the purge loop issues none, otherwise the CSV is ingested. -/
def pipeline_uploads (a : Args) (rows : List Row) :
    List (List Doc) × Except String Unit :=
  if a.removeall then ([], Except.ok ()) else ingest rows

/-- A row with a missing required column makes `rowToDoc` fail. -/
theorem rowToDoc_error_of_missing (row : Row)
    (h : row.lookup "id" = none ∨ row.lookup "name" = none ∨
      row.lookup "description" = none) :
    ∃ e, rowToDoc row = Except.error e := by
  unfold rowToDoc
  cases h1 : row.lookup "id" with
  | none => exact ⟨_, rfl⟩
  | some i =>
    cases h2 : row.lookup "name" with
    | none => simp only [h1, h2]; exact ⟨_, rfl⟩
    | some n =>
      cases h3 : row.lookup "description" with
      | none => simp only [h1, h2, h3]; exact ⟨_, rfl⟩
      | some ds =>
        rcases h with h | h | h
        · rw [h1] at h; exact absurd h (by simp)
        · rw [h2] at h; exact absurd h (by simp)
        · rw [h3] at h; exact absurd h (by simp)

/-- Every `rowToDoc` failure names one of the three required columns. -/
theorem rowToDoc_error_strings (row : Row) (e : String)
    (h : rowToDoc row = Except.error e) :
    e = "KeyError: id" ∨ e = "KeyError: name" ∨ e = "KeyError: description" := by
  unfold rowToDoc at h
  cases h1 : row.lookup "id" with
  | none => rw [h1] at h; simp at h; exact Or.inl h.symm
  | some i =>
    rw [h1] at h
    cases h2 : row.lookup "name" with
    | none => rw [h2] at h; simp at h; exact Or.inr (Or.inl h.symm)
    | some n =>
      rw [h2] at h
      cases h3 : row.lookup "description" with
      | none => rw [h3] at h; simp at h; exact Or.inr (Or.inr h.symm)
      | some ds => rw [h3] at h; exact absurd h (by simp)

/-- If some row lacks a required column, the whole section build fails. -/
theorem buildSections_error_of_missing (rows : List Row)
    (h : ∃ row ∈ rows, row.lookup "id" = none ∨ row.lookup "name" = none ∨
      row.lookup "description" = none) :
    ∃ e, buildSections rows = Except.error e ∧
      (e = "KeyError: id" ∨ e = "KeyError: name" ∨ e = "KeyError: description") := by
  induction rows with
  | nil => rcases h with ⟨row, hmem, _⟩; exact absurd hmem (by simp)
  | cons r rest ih =>
    rcases h with ⟨row, hmem, hcol⟩
    unfold buildSections
    cases h1 : rowToDoc r with
    | error e => exact ⟨e, rfl, rowToDoc_error_strings r e h1⟩
    | ok d =>
      rcases List.mem_cons.mp hmem with heq | hmem2
      · subst heq
        rcases rowToDoc_error_of_missing row hcol with ⟨e, he⟩
        rw [he] at h1
        exact absurd h1 (by simp)
      · rcases ih ⟨row, hmem2, hcol⟩ with ⟨e, he, hes⟩
        rw [he]
        exact ⟨e, rfl, hes⟩

/-- C2: a run on CSV rows lacking any of the three required columns `id`,
`name`, `description` fails during ingestion with a column-lookup
(`KeyError`) error naming a required column, and the ingestion step issues
zero upload calls. -/
theorem ingest_missing_column_fails (rows : List Row)
    (h : ∃ row ∈ rows, row.lookup "id" = none ∨ row.lookup "name" = none ∨
      row.lookup "description" = none) :
    (∃ e, buildSections rows = Except.error e ∧
      (e = "KeyError: id" ∨ e = "KeyError: name" ∨ e = "KeyError: description")) ∧
    (ingest rows).1 = [] ∧
    (∃ e, (ingest rows).2 = Except.error e) := by
  rcases buildSections_error_of_missing rows h with ⟨e, he, hes⟩
  refine ⟨⟨e, he, hes⟩, ?_, ⟨e, ?_⟩⟩ <;> simp [ingest, he]

/-- Witness for C2: one row holding only `id` and `name`. -/
theorem ingest_missing_column_fails_witness :
    (∃ e, buildSections [[("id", "1"), ("name", "n")]] = Except.error e ∧
      (e = "KeyError: id" ∨ e = "KeyError: name" ∨ e = "KeyError: description")) ∧
    (ingest [[("id", "1"), ("name", "n")]]).1 = [] ∧
    (∃ e, (ingest [[("id", "1"), ("name", "n")]]).2 = Except.error e) :=
  ingest_missing_column_fails [[("id", "1"), ("name", "n")]]
    ⟨[("id", "1"), ("name", "n")], by simp, by right; right; rfl⟩

/-- A successfully built document carries exactly the three looked-up
columns of its row. -/
theorem rowToDoc_ok_fields (row : Row) (d : Doc)
    (h : rowToDoc row = Except.ok d) :
    row.lookup "id" = some d.id ∧ row.lookup "name" = some d.name ∧
      row.lookup "description" = some d.description := by
  unfold rowToDoc at h
  cases h1 : row.lookup "id" with
  | none => rw [h1] at h; exact absurd h (by simp)
  | some i =>
    rw [h1] at h
    cases h2 : row.lookup "name" with
    | none => rw [h2] at h; exact absurd h (by simp)
    | some n =>
      rw [h2] at h
      cases h3 : row.lookup "description" with
      | none => rw [h3] at h; exact absurd h (by simp)
      | some ds =>
        rw [h3] at h
        simp only [Except.ok.injEq] at h
        subst h
        exact ⟨rfl, rfl, rfl⟩

/-- Every built document comes from one of the input rows. -/
theorem buildSections_ok_mem (rows : List Row) (secs : List Doc)
    (h : buildSections rows = Except.ok secs) :
    ∀ d ∈ secs, ∃ row ∈ rows, rowToDoc row = Except.ok d := by
  induction rows generalizing secs with
  | nil =>
    unfold buildSections at h
    simp only [Except.ok.injEq] at h
    subst h
    intro d hd
    exact absurd hd (by simp)
  | cons r rest ih =>
    unfold buildSections at h
    cases h1 : rowToDoc r with
    | error e => rw [h1] at h; exact absurd h (by simp)
    | ok d0 =>
      rw [h1] at h
      cases h2 : buildSections rest with
      | error e => rw [h2] at h; exact absurd h (by simp)
      | ok ds =>
        rw [h2] at h
        simp only [Except.ok.injEq] at h
        subst h
        intro d hd
        rcases List.mem_cons.mp hd with heq | hmem
        · subst heq
          exact ⟨r, List.mem_cons_self r rest, h1⟩
        · rcases ih ds h2 d hmem with ⟨row, hrow, hok⟩
          exact ⟨row, List.mem_cons_of_mem r hrow, hok⟩

/-- C7: runs differing only in `--category` upload identical documents: the
uploads are a function of the CSV rows alone, and every uploaded document is
exactly the flat `{id, name, description}` mapping of one input row, so the
category value appears in no uploaded document. -/
theorem category_not_in_documents (a : Args) (c : Option String) (rows : List Row) :
    pipeline_uploads { a with category := c } rows = pipeline_uploads a rows ∧
    (∀ secs, buildSections rows = Except.ok secs → ∀ d ∈ secs,
      ∃ row ∈ rows, row.lookup "id" = some d.id ∧ row.lookup "name" = some d.name ∧
        row.lookup "description" = some d.description) := by
  constructor
  · rfl
  · intro secs h d hd
    rcases buildSections_ok_mem rows secs h d hd with ⟨row, hrow, hok⟩
    exact ⟨row, hrow, rowToDoc_ok_fields row d hok⟩

/-- Witness for C7 at a one-row CSV. -/
theorem category_not_in_documents_witness :
    ∃ row ∈ [[("id", "1"), ("name", "n"), ("description", "d")]],
      List.lookup "id" row = some "1" ∧ List.lookup "name" row = some "n" ∧
      List.lookup "description" row = some "d" :=
  (category_not_in_documents
      ⟨"d.csv", none, false, none, none, none, none, none, none, false, false, false⟩
      (some "cat") [[("id", "1"), ("name", "n"), ("description", "d")]]).2
    [Doc.mk "1" "n" "d"] rfl (Doc.mk "1" "n" "d") (by simp)

/-- The loop of `index_sections` (lines 69-78) with the binding of the
Python local `results` made explicit: it is `none` until a flush first
assigns it, and each loop flush rebinds it to the upload outcome of that
flush (one success flag per record). -/
def indexRun (upload : List Doc → List Bool) :
    List Doc → List Doc → Nat → Option (List Bool) →
      Option (List Bool) × List Doc
  | [], batch, _, results => (results, batch)
  | s :: rest, batch, i, results =>
      let batch2 := batch ++ [s]
      let i2 := i + 1
      if i2 % 1000 = 0 then indexRun upload rest [] i2 (some (upload batch2))
      else indexRun upload rest batch2 i2 results

/-- `index_sections` (lines 64-83) including the final print of line 83,
which reads `results` outside the guard of lines 80-82: when verbose, the
run fails with `NameError` exactly if `results` was never bound. -/
def index_sections_run (upload : List Doc → List Bool) (verbose : Bool)
    (sections : List Doc) : Except String Unit :=
  let r := indexRun upload sections [] 0 none
  let results := if 0 < r.2.length then some (upload r.2) else r.1
  if verbose then
    match results with
    | none => Except.error "NameError: results is not defined"
    | some _ => Except.ok ()
  else Except.ok ()

/-- C8: calling `index_sections` on an empty input with verbose output
enabled fails with an unbound-variable error: with no loop flush and no
trailing flush, the final verbose print reads `results` before any flush has
defined it. -/
theorem index_sections_empty_verbose_nameerror (upload : List Doc → List Bool) :
    index_sections_run upload true [] =
      Except.error "NameError: results is not defined" := rfl

/-- The match-all query of line 91: `search("", top=1000,
include_total_count=True)` returns up to 1000 documents of the index and the
total match count. -/
def searchTop (ix : List Doc) : List Doc × Nat := (ix.take 1000, ix.length)

/-- Deleting the keys of the first returned chunk strictly shrinks a
non-empty index: the head document itself is among the deleted keys. -/
theorem delete_chunk_shrinks (a : Doc) (t : List Doc) :
    ((a :: t).filter
      (fun d => d.id ∉ ((a :: t).take 1000).map (fun d2 => d2.id))).length <
      (a :: t).length := by
  have htake : (a :: t).take 1000 = a :: t.take 999 := rfl
  have hmem : a.id ∈ ((a :: t).take 1000).map (fun d2 => d2.id) := by
    rw [htake]
    exact List.mem_map.mpr ⟨a, List.mem_cons_self a _, rfl⟩
  rw [List.filter_cons]
  have hfalse : (decide (a.id ∉ ((a :: t).take 1000).map (fun d2 => d2.id))) = false := by
    simp [hmem]
  rw [hfalse]
  simp only [Bool.false_eq_true, if_false]
  have hle := List.length_filter_le
    (fun d => decide (d.id ∉ ((a :: t).take 1000).map (fun d2 => d2.id))) t
  simp only [List.length_cons]
  omega

/-- `delete_chunk_shrinks` stated for an arbitrary non-empty index. -/
theorem delete_chunk_shrinks' (ix : List Doc) (h : ix.length ≠ 0) :
    (ix.filter
      (fun d => d.id ∉ ((ix.take 1000).map (fun d2 => d2.id)))).length <
      ix.length := by
  cases ix with
  | nil => exact absurd rfl h
  | cons a t => exact delete_chunk_shrinks a t

/-- `remove_from_index` (lines 85-97): loop — issue the match-all query; if
the total count is zero, stop; otherwise delete the returned documents by
their `id` key and sleep 2 seconds before the next iteration. Each trace
entry records one iteration: the count the query reported, the number of
documents deleted, and the seconds slept; the second component is the index
left when the loop returns. -/
def remove_from_index (ix : List Doc) : List (Nat × Nat × Nat) × List Doc :=
  if _h : (searchTop ix).2 = 0 then ([], ix)
  else
    let keys := (searchTop ix).1.map (fun d => d.id)
    let ix2 := ix.filter (fun d => d.id ∉ keys)
    let rest := remove_from_index ix2
    (((searchTop ix).2, keys.length, 2) :: rest.1, rest.2)
termination_by ix.length
decreasing_by
  exact delete_chunk_shrinks' ix (by simpa [searchTop] using _h)

/-- The purge loop only returns once the index it leaves behind is empty. -/
theorem remove_from_index_final_nil (ix : List Doc) :
    (remove_from_index ix).2 = [] := by
  induction ix using remove_from_index.induct with
  | case1 ix h =>
    rw [remove_from_index, dif_pos h]
    simp only [searchTop] at h
    exact List.eq_nil_of_length_eq_zero h
  | case2 ix h keys ix2 ih =>
    rw [remove_from_index, dif_neg h]
    exact ih

/-- The purge loop runs at most one iteration per document, and every
iteration reports a positive count, deletes `min 1000 count` documents and
sleeps exactly 2 seconds. -/
theorem remove_from_index_trace (ix : List Doc) :
    (remove_from_index ix).1.length ≤ ix.length ∧
    ∀ e ∈ (remove_from_index ix).1,
      0 < e.1 ∧ e.2.1 = min 1000 e.1 ∧ e.2.2 = 2 := by
  induction ix using remove_from_index.induct with
  | case1 ix h =>
    rw [remove_from_index, dif_pos h]
    simp
  | case2 ix h keys ix2 ih =>
    have hne : ix.length ≠ 0 := by simpa [searchTop] using h
    have hlt : ix2.length < ix.length := delete_chunk_shrinks' ix hne
    have hunf : remove_from_index ix =
        (((searchTop ix).2, keys.length, 2) :: (remove_from_index ix2).1,
          (remove_from_index ix2).2) := by
      rw [remove_from_index, dif_neg h]
    rw [hunf]
    constructor
    · simp only [List.length_cons]
      have h2 := ih.1
      omega
    · intro e he
      simp only [List.mem_cons] at he
      rcases he with rfl | he
      · refine ⟨?_, ?_, rfl⟩
        · simp only [searchTop]
          omega
        · show keys.length = min 1000 (searchTop ix).2
          unfold keys
          simp [searchTop, List.length_take]
      · exact ih.2 e he

/-- C3: the purge loop queries up to 1000 documents per iteration together
with the total count, stops exactly when a query reports count zero,
otherwise deletes the returned documents by key and sleeps a fixed 2
seconds; it terminates within one iteration per initially present document,
and when it returns, the count query on the index it leaves reports 0. -/
theorem remove_all_terminates_empty (ix : List Doc) :
    (remove_from_index ix).2 = [] ∧
    (searchTop (remove_from_index ix).2).2 = 0 ∧
    (remove_from_index ix).1.length ≤ ix.length ∧
    (∀ e ∈ (remove_from_index ix).1,
      0 < e.1 ∧ e.2.1 = min 1000 e.1 ∧ e.2.2 = 2) := by
  have h1 := remove_from_index_final_nil ix
  have h2 := remove_from_index_trace ix
  refine ⟨h1, ?_, h2.1, h2.2⟩
  rw [h1]
  rfl

/-- Witness for C3 at a one-document index: the single iteration reports
count 1, deletes 1 document and sleeps 2 seconds. -/
theorem remove_all_terminates_empty_witness :
    (remove_from_index [Doc.mk "1" "a" "b"]).2 = [] ∧
    (0 < (1, 1, 2).1 ∧ (1, 1, 2).2.1 = min 1000 (1, 1, 2).1 ∧
      (1, 1, 2).2.2 = 2) := by
  refine ⟨(remove_all_terminates_empty [Doc.mk "1" "a" "b"]).1, ?_⟩
  apply (remove_all_terminates_empty [Doc.mk "1" "a" "b"]).2.2.2
  rw [remove_from_index]
  simp [searchTop]
